import Mathlib

/-!
# Verification of the libwimaxll message-pipe and callback-dispatch engine

A shallow embedding of the `wimax-tools` user-space library
(`include/wimaxll.h` and the engine it documents) together with proofs of
the specified properties.

Conventions of the embedding:
* C pointers that only serve as identities (handle back-references, callback
  function pointers, context pointers) are modelled as `Nat` identifiers; a
  possibly-NULL pointer is an `Option`.
* Machine integers are `Nat`/`Int` with explicit truncation (`% 2 ^ 16`,
  `% 2 ^ 32`) where the C type forces it.
* Fallible operations return `Except` values; operations that in C report a
  negative errno return the corresponding error constructor, and `werrno`
  maps constructors to the errno numbers documented in the header.
* Stateful operations take and return the state explicitly, together with a
  count of kernel interactions (system calls) they perform.
-/

/-! ## Callback contexts (`struct wimaxll_gnl_cb_context`, wimaxll.h:371-443) -/

/-- The errno value `EINPROGRESS` (115 on Linux); `-EINPROGRESS` is the
"result not yet set" sentinel of a callback context. -/
def EINPROGRESS : Int := 115

/-- The C struct `wimaxll_gnl_cb_context` (wimaxll.h:371-375): a handle
back-reference `wmx` (a pointer, modelled as an identifier), the `result`
slot (`ssize_t`), and the internal `msg_done` bitfield. -/
structure wimaxll_gnl_cb_context where
  wmx : Nat
  result : Int
  msg_done : Bool
deriving DecidableEq, Repr

/-- The `WIMAXLL_GNL_CB_CONTEXT_INIT(_wmx)` macro (wimaxll.h:394-397): a C
designated initializer setting `.wmx` and `.result = -EINPROGRESS`; the
unnamed `msg_done` bitfield is zero-initialized. -/
def WIMAXLL_GNL_CB_CONTEXT_INIT (wmx : Nat) : wimaxll_gnl_cb_context :=
  { wmx := wmx, result := -EINPROGRESS, msg_done := false }

/-- The function `wimaxll_gnl_cb_context_init` (wimaxll.h:421-426): assigns `ctx->wmx`
and `ctx->result`; the `msg_done` field is left as it was. -/
def wimaxll_gnl_cb_context_init (ctx : wimaxll_gnl_cb_context)
    (wmx : Nat) : wimaxll_gnl_cb_context :=
  { ctx with wmx := wmx, result := -EINPROGRESS }

/-- The function `wimaxll_cb_context_set_result` (wimaxll.h:439-443): the argument is a
possibly-NULL pointer (`none` models NULL); the body is
`if (ctx != NULL && ctx->result == -EINPROGRESS) ctx->result = val;`. -/
def wimaxll_cb_context_set_result (ctx : Option wimaxll_gnl_cb_context)
    (val : Int) : Option wimaxll_gnl_cb_context :=
  match ctx with
  | none => none
  | some c =>
    if c.result = -EINPROGRESS then some { c with result := val } else some c

/-! ## Endianness helpers (wimaxll.h:503-611)

The C sources select between the little- and big-endian branch with a
preprocessor conditional on `__BYTE_ORDER`; the embedding makes the byte
order an explicit parameter and covers both branches. -/

/-- The two values of `__BYTE_ORDER` the header accepts. -/
inductive ByteOrder where
  | littleEndian
  | bigEndian
deriving DecidableEq, Repr

/-- The function `wimaxll_swap_16` (wimaxll.h:511-514): `bswap_16` on an
`unsigned short`, i.e. the two bytes of `x` exchanged. -/
def wimaxll_swap_16 (x : Nat) : Nat :=
  (x % 2 ^ 16) % 2 ^ 8 * 2 ^ 8 + (x % 2 ^ 16) / 2 ^ 8

/-- The function `wimaxll_swap_32` (wimaxll.h:524-527): `bswap_32`, the four bytes of
the 32-bit value reversed. -/
def wimaxll_swap_32 (x : Nat) : Nat :=
  x % 2 ^ 32 % 2 ^ 8 * 2 ^ 24 + x % 2 ^ 32 / 2 ^ 8 % 2 ^ 8 * 2 ^ 16
    + x % 2 ^ 32 / 2 ^ 16 % 2 ^ 8 * 2 ^ 8 + x % 2 ^ 32 / 2 ^ 24

/-- The function `wimaxll_cpu_to_le16` (wimaxll.h:537-548): identity on little-endian
hosts, byte swap on big-endian hosts. -/
def wimaxll_cpu_to_le16 (bo : ByteOrder) (x : Nat) : Nat :=
  match bo with
  | .littleEndian => x
  | .bigEndian => wimaxll_swap_16 x

/-- The function `wimaxll_le16_to_cpu` (wimaxll.h:558-569): identity on little-endian
hosts, byte swap on big-endian hosts. -/
def wimaxll_le16_to_cpu (bo : ByteOrder) (le16 : Nat) : Nat :=
  match bo with
  | .littleEndian => le16
  | .bigEndian => wimaxll_swap_16 le16

/-- The function `wimaxll_cpu_to_le32` (wimaxll.h:579-590). -/
def wimaxll_cpu_to_le32 (bo : ByteOrder) (x : Nat) : Nat :=
  match bo with
  | .littleEndian => x
  | .bigEndian => wimaxll_swap_32 x

/-- The function `wimaxll_le32_to_cpu` (wimaxll.h:600-611). -/
def wimaxll_le32_to_cpu (bo : ByteOrder) (le32 : Nat) : Nat :=
  match bo with
  | .littleEndian => le32
  | .bigEndian => wimaxll_swap_32 le32

/-! ## Frame codec

The codec implementation (`wimaxll_mc_rx_read`'s netlink parsing and
`wimaxll_msg_write`'s framing) is not part of the sources here, only its
declarations; the definitions below are modelled from the spec, §4.1. -/

/-- Modelled from the spec: one typed, length-prefixed attribute of a frame
(the codec implementation is missing from the sources; §4.1 "a sequence of
typed, length-prefixed attributes"). -/
structure Attr where
  ty : Nat
  payload : List Nat
deriving DecidableEq, Repr

/-- Modelled from the spec: a decoded notification, "header plus typed
attribute list" (glossary "Frame"; §4.1 `decode(raw_bytes) -> Notification`).
The header carries the command and the total frame length. -/
structure Msg where
  cmd : Nat
  attrs : List Attr
deriving DecidableEq, Repr

/-- Modelled from the spec: serialization of one attribute - type byte,
length byte, then the payload bytes (§4.1 "typed, length-prefixed"). -/
def encodeAttr (a : Attr) : List Nat :=
  a.ty :: a.payload.length :: a.payload

/-- Modelled from the spec: serialization of the attribute list. -/
def encodeAttrs : List Attr → List Nat
  | [] => []
  | a :: rest => encodeAttr a ++ encodeAttrs rest

/-- Modelled from the spec: `encode(command, attributes) -> raw_bytes`
(§4.1): a two-byte header (total frame length, then command) followed by
the attribute list. -/
def encode (m : Msg) : List Nat :=
  (2 + (encodeAttrs m.attrs).length) :: m.cmd :: encodeAttrs m.attrs

/-- Modelled from the spec: the attribute walk of `decode` (§4.1). A
truncated attribute header or a length field pointing past the buffer end
is a malformed frame (`none`); the attribute type is carried through
without being inspected, so an unknown type is skipped over, never fatal. -/
def decodeAttrs : List Nat → Option (List Attr)
  | [] => some []
  | _ :: [] => none
  | t :: len :: rest =>
    if len ≤ rest.length then
      match decodeAttrs (rest.drop len) with
      | none => none
      | some attrs => some ({ ty := t, payload := rest.take len } :: attrs)
    else none
termination_by l => l.length
decreasing_by
  simp only [List.length_cons, List.length_drop]
  omega

/-- Modelled from the spec: `decode(raw_bytes) -> Notification |
MalformedFrame` (§4.1), with `none` standing for `MalformedFrame`. The
header's length field must be consistent with the buffer ("truncated or
inconsistent length fields yield MalformedFrame"). -/
def decode : List Nat → Option Msg
  | len :: cmd :: rest =>
    if len = rest.length + 2 then
      match decodeAttrs rest with
      | some attrs => some { cmd := cmd, attrs := attrs }
      | none => none
    else none
  | _ => none

/-- Modelled from the spec: a message all of whose fields fit in the wire
format's bytes - a "valid frame encoding" (§8). -/
def ValidMsg (m : Msg) : Prop :=
  m.cmd < 2 ^ 8
  ∧ (∀ a ∈ m.attrs,
      a.ty < 2 ^ 8 ∧ a.payload.length < 2 ^ 8 ∧ ∀ b ∈ a.payload, b < 2 ^ 8)
  ∧ (encode m).length < 2 ^ 8

instance (m : Msg) : Decidable (ValidMsg m) := by
  unfold ValidMsg
  infer_instance

/-! ## Error taxonomy and handles

The pipe registry, dispatch engine and handle lifecycle are likewise
declared but not implemented in the sources here; the definitions are
modelled from the spec, §3-§4.4 and §7. -/

/-- Modelled from the spec: the error taxonomy of §7. -/
inductive WErr where
  | DeviceGone
  | NoSuchPipe
  | BadPipeId
  | MalformedFrame
  | NotWritable
  | Timeout
  | WouldBlock
deriving DecidableEq, Repr

/-- The negative errno numbers behind the taxonomy; the header documents
that a handle whose device disappeared fails with `-ENODEV` = -19
(wimaxll.h:81-82), the others follow the POSIX-style convention of §6. -/
def werrno : WErr → Int
  | .DeviceGone => -19
  | .NoSuchPipe => -2
  | .BadPipeId => -9
  | .MalformedFrame => -71
  | .NotWritable => -95
  | .Timeout => -110
  | .WouldBlock => -11

/-- Modelled from the spec: an installed callback reference - either an
application callback (a function pointer, modelled by an identifier) or the
Synchronous Wait Adapter's internal one-shot callback (§4.4). -/
inductive CbRef where
  | user (fn : Nat)
  | adapter
deriving DecidableEq, Repr

/-- Modelled from the spec: `struct wimaxll_handle` (opaque in the header,
wimaxll.h:237; attributes from §3 "Handle"): device name, validity flag
(`dead` true once the kernel reported device removal), the advertised
multicast groups (name to group id), the pipe registry (index = pipe id,
entry = the open pipe's group/fd or `none` for a closed slot), the frames
queued by the kernel on the default pipe, and the installed state-change
callback and context of the default pipe (both nullable). -/
structure wimaxll_handle where
  name : Nat
  dead : Bool
  groups : List (Nat × Nat)
  pipes : List (Option Nat)
  queue : List (List Nat)
  cb : Option CbRef
  cb_ctx : Option Nat
deriving DecidableEq, Repr

/-- Modelled from the spec: the observable outcome of one library operation
- its return value, the handle state afterwards, and how many kernel
interactions (system calls) it performed. -/
structure OpOutcome (α : Type) where
  result : Except WErr α
  handle : wimaxll_handle
  kernel_ops : Nat
deriving Repr

/-! ## Pipe registry operations -/

/-- Modelled from the spec: `fd(pipe_id) -> fd | Error(BadPipeId)` (§4.2):
look the id up in the registry; a slot that is out of range or cleared is a
`BadPipeId` error. -/
def wimaxll_pipe_fd (h : wimaxll_handle) (pipe_id : Nat) : Except WErr Nat :=
  match h.pipes[pipe_id]? with
  | some (some fd) => .ok fd
  | _ => .error .BadPipeId

/-- Modelled from the spec: `close_pipe(pipe_id)` (§4.2), which in the
sources is `void wimaxll_pipe_close(struct wimaxll_handle *, unsigned)`
(wimaxll.h:462, delegating to `wimaxll_mc_rx_close`, wimaxll.h:455): the
declared return type is `void`, modelled as `Unit`, so the call reports no
value to the caller. Closing an open pipe releases the socket and clears
the registry slot; closing an already-closed or never-opened id does
nothing (and, being `void`, returns no error). -/
def wimaxll_pipe_close (h : wimaxll_handle) (pipe_id : Nat) :
    Unit × wimaxll_handle :=
  match h.pipes[pipe_id]? with
  | some (some _) => ((), { h with pipes := h.pipes.set pipe_id none })
  | _ => ((), h)

/-- Modelled from the spec: `open_pipe(name) -> pipe_id | Error` (§4.2): on
a dead handle fail with `DeviceGone` without attempting resolution; resolve
the name among the kernel-advertised multicast groups (one kernel
interaction), failing with `NoSuchPipe` when the name is unknown; a new
registry slot owning the group's socket is appended. -/
def wimaxll_pipe_open (h : wimaxll_handle) (pname : Nat) : OpOutcome Nat :=
  if h.dead then ⟨.error .DeviceGone, h, 0⟩
  else
    match h.groups.find? (fun p => p.1 == pname) with
    | none => ⟨.error .NoSuchPipe, h, 1⟩
    | some p =>
      ⟨.ok h.pipes.length, { h with pipes := h.pipes ++ [some p.2] }, 1⟩

/-! ## Dispatch engine -/

/-- Modelled from the spec: the Dispatch Engine drain loop of
`wimaxll_pipe_read` (§4.3): repeatedly receive one frame until no further
frame is immediately available; decode each; a malformed frame is dropped
and processing continues (§7); on success the installed callback runs with
the decoded notification - a return of 0 continues with further queued
frames, a negative "stop" return ends the call immediately, leaving the
remaining frames queued for the next call. The result is the list of
notifications the callback received, in kernel-delivery order, and the
frames left queued. -/
def wimaxll_pipe_read_drain (cb : Msg → Int) :
    List (List Nat) → List Msg × List (List Nat)
  | [] => ([], [])
  | raw :: rest =>
    match decode raw with
    | none => wimaxll_pipe_read_drain cb rest
    | some m =>
      if cb m < 0 then ([m], rest)
      else
        let r := wimaxll_pipe_read_drain cb rest
        (m :: r.1, r.2)

/-- Modelled from the spec: the blocking raw read `msg_read` of the default
pipe (§4.3, §6): on a dead handle fail with `DeviceGone` with no kernel
interaction; otherwise receive frames one by one (one kernel interaction
each), dropping malformed ones (§7), until a frame decodes, whose
notification is returned with ownership of the buffer; an empty queue is a
`WouldBlock`. -/
def msg_read_scan : List (List Nat) → Nat → Except WErr Msg × List (List Nat) × Nat
  | [], n => (.error .WouldBlock, [], n)
  | raw :: rest, n =>
    match decode raw with
    | none => msg_read_scan rest (n + 1)
    | some m => (.ok m, rest, n + 1)

/-- Modelled from the spec: `msg_read(handle) -> (buffer, size) | error`
(§6), built on `msg_read_scan`. -/
def wimaxll_msg_read (h : wimaxll_handle) : OpOutcome Msg :=
  if h.dead then ⟨.error .DeviceGone, h, 0⟩
  else
    match msg_read_scan h.queue 0 with
    | (res, rest, n) => ⟨res, { h with queue := rest }, n⟩

/-- Modelled from the spec: `msg_write(handle, buffer, size)` on the
default pipe (§4.5, §6): on a dead handle fail with `DeviceGone` with no
kernel interaction; otherwise wrap the payload with the codec and transmit
it (one kernel interaction), returning the bytes written. -/
def wimaxll_msg_write (h : wimaxll_handle) (m : Msg) : OpOutcome Nat :=
  if h.dead then ⟨.error .DeviceGone, h, 0⟩
  else ⟨.ok (encode m).length, h, 1⟩

/-! ## Synchronous wait adapter -/

/-- Modelled from the spec: the matcher of the state-change wait (§4.4,
§3 "State-Change Notification"): a notification carrying the old and new
device states, here a frame with the state-change command 3 and two
single-byte attributes of types 1 (old state) and 2 (new state). -/
def stateChangeOf (m : Msg) : Option (Nat × Nat) :=
  if m.cmd = 3 then
    match m.attrs with
    | [o, n] =>
      if o.ty = 1 ∧ n.ty = 2 then
        match o.payload, n.payload with
        | [ov], [nv] => some (ov, nv)
        | _, _ => none
      else none
    | _ => none
  else none

/-- Modelled from the spec: the adapter's blocking loop (§4.4): drain
frames through the dispatch engine with the one-shot callback installed;
the first matching state-change notification completes the exchange and
stops the drain (remaining frames stay queued); non-matching and malformed
frames are passed over; an exhausted queue is the caller-supplied deadline
expiring, a `Timeout`. -/
def waitScan : List (List Nat) → Except WErr (Nat × Nat) × List (List Nat)
  | [] => (.error .Timeout, [])
  | raw :: rest =>
    match decode raw with
    | none => waitScan rest
    | some m =>
      match stateChangeOf m with
      | some p => (.ok p, rest)
      | none => waitScan rest

/-- Modelled from the spec: `wimaxll_wait_for_state_change` (declared
wimaxll.h:491-493; behavior from §4.4): on a dead handle fail with
`DeviceGone`; otherwise save the installed state-change callback and
context, install the adapter's one-shot callback, drive the dispatch
engine until a state change matches or the wait ends, and on every return
path restore the saved callback and context verbatim. -/
def wimaxll_wait_for_state_change (h : wimaxll_handle) :
    OpOutcome (Nat × Nat) :=
  if h.dead then ⟨.error .DeviceGone, h, 0⟩
  else
    let saved_cb := h.cb
    let saved_ctx := h.cb_ctx
    let h1 : wimaxll_handle :=
      { h with cb := some .adapter, cb_ctx := some 0 }
    match waitScan h1.queue with
    | (res, rest) =>
      ⟨res, { h1 with cb := saved_cb, cb_ctx := saved_ctx, queue := rest }, 1⟩

/-! ## Helper lemmas about the byte swaps -/

theorem wimaxll_swap_16_involutive (x : Nat) (hx : x < 2 ^ 16) :
    wimaxll_swap_16 (wimaxll_swap_16 x) = x := by
  have h1 : x % 2 ^ 16 = x := Nat.mod_eq_of_lt hx
  unfold wimaxll_swap_16
  rw [h1]
  have h2 : x % 2 ^ 8 * 2 ^ 8 + x / 2 ^ 8 < 2 ^ 16 := by omega
  rw [Nat.mod_eq_of_lt h2]
  omega

theorem wimaxll_swap_32_bytes (b3 b2 b1 b0 : Nat)
    (h3 : b3 < 2 ^ 8) (h2 : b2 < 2 ^ 8) (h1 : b1 < 2 ^ 8) (h0 : b0 < 2 ^ 8) :
    wimaxll_swap_32 (b3 * 2 ^ 24 + b2 * 2 ^ 16 + b1 * 2 ^ 8 + b0)
      = b0 * 2 ^ 24 + b1 * 2 ^ 16 + b2 * 2 ^ 8 + b3 := by
  unfold wimaxll_swap_32
  have hs : (b3 * 2 ^ 24 + b2 * 2 ^ 16 + b1 * 2 ^ 8 + b0) % 2 ^ 32
      = b3 * 2 ^ 24 + b2 * 2 ^ 16 + b1 * 2 ^ 8 + b0 := by omega
  rw [hs]
  omega

theorem wimaxll_swap_32_involutive (x : Nat) (hx : x < 2 ^ 32) :
    wimaxll_swap_32 (wimaxll_swap_32 x) = x := by
  have hb : ∃ b3 b2 b1 b0, b3 < 2 ^ 8 ∧ b2 < 2 ^ 8 ∧ b1 < 2 ^ 8 ∧ b0 < 2 ^ 8
      ∧ x = b3 * 2 ^ 24 + b2 * 2 ^ 16 + b1 * 2 ^ 8 + b0 :=
    ⟨x / 2 ^ 24, x / 2 ^ 16 % 2 ^ 8, x / 2 ^ 8 % 2 ^ 8, x % 2 ^ 8,
      by omega, by omega, by omega, by omega, by omega⟩
  obtain ⟨b3, b2, b1, b0, h3, h2, h1, h0, rfl⟩ := hb
  rw [wimaxll_swap_32_bytes b3 b2 b1 b0 h3 h2 h1 h0,
    wimaxll_swap_32_bytes b0 b1 b2 b3 h0 h1 h2 h3]

/-! ## Theorems for claims C1, C8, C9, C10 -/

/-- C1: `wimaxll_cb_context_set_result` writes `v` into the result slot only
if the slot still holds the `-EINPROGRESS` sentinel; once the slot holds a
non-sentinel value every later call leaves it unchanged, so the slot
transitions from sentinel to a final value at most once and the first
setter wins. -/
theorem set_result_single_assignment
    (c : wimaxll_gnl_cb_context) (v w : Int) :
    (wimaxll_cb_context_set_result (some c) v ≠ some c →
      c.result = -EINPROGRESS)
    ∧ (c.result ≠ -EINPROGRESS →
      wimaxll_cb_context_set_result (some c) v = some c)
    ∧ (v ≠ -EINPROGRESS → ∀ u : Int,
      wimaxll_cb_context_set_result
          (wimaxll_cb_context_set_result (some c) v) u
        = wimaxll_cb_context_set_result (some c) v)
    ∧ (v ≠ -EINPROGRESS → ∀ u : Int,
      wimaxll_cb_context_set_result
          (wimaxll_cb_context_set_result (some c) w) u
        = wimaxll_cb_context_set_result (some c) w
      ∨ w = -EINPROGRESS) := by
  refine ⟨fun h => ?_, fun h => ?_, fun hv u => ?_, fun hv u => ?_⟩
  · by_contra hne
    simp [wimaxll_cb_context_set_result, hne] at h
  · simp [wimaxll_cb_context_set_result, h]
  · by_cases hc : c.result = -EINPROGRESS
    · simp [wimaxll_cb_context_set_result, hc, hv]
    · simp [wimaxll_cb_context_set_result, hc]
  · by_cases hw : w = -EINPROGRESS
    · exact Or.inr hw
    · left
      by_cases hc : c.result = -EINPROGRESS
      · simp [wimaxll_cb_context_set_result, hc, hw]
      · simp [wimaxll_cb_context_set_result, hc]

/-- Witness for C1 at a concrete context: the slot starts at the sentinel,
a first call sets it to 0, and a later call with 7 leaves it at 0. -/
theorem set_result_single_assignment_witness :
    wimaxll_cb_context_set_result
        (wimaxll_cb_context_set_result
          (some { wmx := 1, result := -EINPROGRESS, msg_done := false }) 0) 7
      = wimaxll_cb_context_set_result
          (some { wmx := 1, result := -EINPROGRESS, msg_done := false }) 0 :=
  (set_result_single_assignment
      { wmx := 1, result := -EINPROGRESS, msg_done := false } 0 3).2.2.1
    (by decide) 7

/-- C8: both initialization forms leave the context with `wmx` equal to the
given handle back-reference and `result` equal to the `-EINPROGRESS`
sentinel, and they agree on those two fields. -/
theorem cb_context_init_forms_agree (w : Nat) (c : wimaxll_gnl_cb_context) :
    (WIMAXLL_GNL_CB_CONTEXT_INIT w).wmx = w
    ∧ (WIMAXLL_GNL_CB_CONTEXT_INIT w).result = -EINPROGRESS
    ∧ (wimaxll_gnl_cb_context_init c w).wmx = w
    ∧ (wimaxll_gnl_cb_context_init c w).result = -EINPROGRESS
    ∧ (WIMAXLL_GNL_CB_CONTEXT_INIT w).wmx
        = (wimaxll_gnl_cb_context_init c w).wmx
    ∧ (WIMAXLL_GNL_CB_CONTEXT_INIT w).result
        = (wimaxll_gnl_cb_context_init c w).result := by
  refine ⟨rfl, rfl, rfl, rfl, rfl, rfl⟩

/-- C9: on either byte order, `le16_to_cpu` inverts `cpu_to_le16` on 16-bit
values and `le32_to_cpu` inverts `cpu_to_le32` on 32-bit values (identity on
little-endian hosts, an involutive byte swap on big-endian hosts). -/
theorem endianness_round_trip (bo : ByteOrder) (x y : Nat)
    (hx : x < 2 ^ 16) (hy : y < 2 ^ 32) :
    wimaxll_le16_to_cpu bo (wimaxll_cpu_to_le16 bo x) = x
    ∧ wimaxll_le32_to_cpu bo (wimaxll_cpu_to_le32 bo y) = y := by
  cases bo with
  | littleEndian => exact ⟨rfl, rfl⟩
  | bigEndian =>
    exact ⟨wimaxll_swap_16_involutive x hx, wimaxll_swap_32_involutive y hy⟩

/-- Witness for C9 on a big-endian host at concrete 16- and 32-bit values. -/
theorem endianness_round_trip_witness :
    wimaxll_le16_to_cpu .bigEndian
        (wimaxll_cpu_to_le16 .bigEndian 4660) = 4660
    ∧ wimaxll_le32_to_cpu .bigEndian
        (wimaxll_cpu_to_le32 .bigEndian 305419896) = 305419896 :=
  endianness_round_trip .bigEndian 4660 305419896 (by decide) (by decide)

/-- C10: calling `wimaxll_cb_context_set_result` with a NULL context pointer
is a total no-op: no dereference, no state change, normal return. -/
theorem set_result_null_noop (v : Int) :
    wimaxll_cb_context_set_result none v = none := rfl

/-! ## Helper lemmas about the frame codec -/

theorem decodeAttrs_encodeAttrs (attrs : List Attr) :
    decodeAttrs (encodeAttrs attrs) = some attrs := by
  induction attrs with
  | nil => simp [encodeAttrs, decodeAttrs]
  | cons a rest ih =>
    have hshape : encodeAttrs (a :: rest)
        = a.ty :: a.payload.length :: (a.payload ++ encodeAttrs rest) := by
      simp [encodeAttrs, encodeAttr]
    rw [hshape, decodeAttrs]
    have hle : a.payload.length ≤ (a.payload ++ encodeAttrs rest).length := by
      simp
    rw [if_pos hle, List.drop_left, List.take_left, ih]

theorem encode_shape (m : Msg) :
    encode m = (2 + (encodeAttrs m.attrs).length) :: m.cmd
      :: encodeAttrs m.attrs := rfl

/-! ## Theorems for claims C2 and C3 -/

/-- C2: for every message that is a valid frame encoding, decoding the
bytes produced by encoding it yields the message again. -/
theorem frame_round_trip (m : Msg) (_hv : ValidMsg m) :
    decode (encode m) = some m := by
  rw [encode_shape, decode]
  rw [if_pos (Nat.add_comm 2 (encodeAttrs m.attrs).length),
    decodeAttrs_encodeAttrs m.attrs]

/-- Witness for C2 at a concrete message with one attribute. -/
theorem frame_round_trip_witness :
    decode (encode { cmd := 4, attrs := [{ ty := 7, payload := [1, 2] }] })
      = some { cmd := 4, attrs := [{ ty := 7, payload := [1, 2] }] } :=
  frame_round_trip { cmd := 4, attrs := [{ ty := 7, payload := [1, 2] }] }
    (by decide)

/-- C3: truncating the encoding of any frame at any strict prefix length
makes `decode` report a malformed frame (it is a total function over the
byte list, so it cannot read past the buffer bound or panic), and the
attribute walk succeeds on every well-formed attribute sequence whatever
the attribute types are, so an unknown attribute type is skipped, never
fatal. -/
theorem decode_truncation_malformed (m : Msg) :
    (∀ k, k < (encode m).length → decode ((encode m).take k) = none)
    ∧ (∀ attrs : List Attr, decodeAttrs (encodeAttrs attrs) = some attrs) := by
  constructor
  · intro k hk
    match k with
    | 0 => rfl
    | 1 => rfl
    | Nat.succ (Nat.succ j) =>
      rw [encode_shape] at hk
      simp only [List.length_cons] at hk
      have hj : j < (encodeAttrs m.attrs).length := by omega
      rw [encode_shape, List.take_succ_cons, List.take_succ_cons, decode]
      rw [if_neg]
      simp only [List.length_take]
      omega
  · exact decodeAttrs_encodeAttrs

/-- Witness for C3: a two-byte truncation of a concrete three-attribute
frame is malformed, and an attribute of an arbitrary unknown type decodes. -/
theorem decode_truncation_malformed_witness :
    decode ((encode { cmd := 4, attrs := [{ ty := 7, payload := [1, 2] }] }).take 2)
      = none
    ∧ decodeAttrs (encodeAttrs [{ ty := 250, payload := [5] }])
      = some [{ ty := 250, payload := [5] }] :=
  ⟨(decode_truncation_malformed
      { cmd := 4, attrs := [{ ty := 7, payload := [1, 2] }] }).1 2 (by decide),
    (decode_truncation_malformed
      { cmd := 4, attrs := [{ ty := 7, payload := [1, 2] }] }).2
      [{ ty := 250, payload := [5] }]⟩

/-! ## Helper lemmas about the dispatch engine -/

theorem drain_all_continue (cb : Msg → Int) (raws : List (List Nat))
    (msgs : List Msg) (hdec : raws.map decode = msgs.map some)
    (hall : ∀ m ∈ msgs, cb m = 0) :
    wimaxll_pipe_read_drain cb raws = (msgs, []) := by
  induction raws generalizing msgs with
  | nil =>
    cases msgs with
    | nil => rfl
    | cons m rest => simp at hdec
  | cons raw raws ih =>
    cases msgs with
    | nil => simp at hdec
    | cons m rest =>
      simp only [List.map_cons, List.cons.injEq] at hdec
      obtain ⟨h1, h2⟩ := hdec
      have hm : cb m = 0 := hall m (List.mem_cons_self m rest)
      have hrest : ∀ x ∈ rest, cb x = 0 :=
        fun x hx => hall x (List.mem_cons_of_mem m hx)
      rw [wimaxll_pipe_read_drain, h1]
      simp only [hm]
      rw [if_neg (by omega)]
      rw [ih rest h2 hrest]

/-! ## Theorem for claim C5 -/

/-- C5: with frames queued whose decoded notifications are `pre` then a
stopping one `s` then `post`, where the callback continues (returns 0) on
every element of `pre` and stops (returns a negative) on `s`, one
`pipe_read` drain invokes the callback on exactly the first
`pre.length + 1` notifications in kernel-delivery order and leaves the
remaining frames queued; the next drain call delivers exactly those
remaining frames, in order. -/
theorem pipe_read_stop_control (cb : Msg → Int) (raws : List (List Nat))
    (pre post : List Msg) (s : Msg)
    (hdec : raws.map decode = (pre ++ s :: post).map some)
    (hpre : ∀ m ∈ pre, cb m = 0)
    (hs : cb s < 0)
    (hpost : ∀ m ∈ post, cb m = 0) :
    wimaxll_pipe_read_drain cb raws = (pre ++ [s], raws.drop (pre.length + 1))
    ∧ wimaxll_pipe_read_drain cb (raws.drop (pre.length + 1)) = (post, []) := by
  induction pre generalizing raws with
  | nil =>
    cases raws with
    | nil => simp at hdec
    | cons raw raws =>
      simp only [List.nil_append, List.map_cons, List.cons.injEq] at hdec
      obtain ⟨h1, h2⟩ := hdec
      constructor
      · rw [wimaxll_pipe_read_drain, h1]
        simp only [if_pos hs]
        rfl
      · simpa using drain_all_continue cb raws post h2 hpost
  | cons p pre ih =>
    cases raws with
    | nil => simp at hdec
    | cons raw raws =>
      simp only [List.cons_append, List.map_cons, List.cons.injEq] at hdec
      obtain ⟨h1, h2⟩ := hdec
      have hp : cb p = 0 := hpre p (List.mem_cons_self p pre)
      have hpre2 : ∀ m ∈ pre, cb m = 0 :=
        fun m hm => hpre m (List.mem_cons_of_mem p hm)
      obtain ⟨ihA, ihB⟩ := ih raws h2 hpre2
      constructor
      · rw [wimaxll_pipe_read_drain, h1]
        simp only [hp]
        rw [if_neg (by omega), ihA]
        simp [List.length_cons]
      · simpa [List.length_cons] using ihB

/-- Witness for C5: three concrete queued frames; the callback stops on
command 2 and continues elsewhere, so one drain fires twice and the next
drain delivers the third frame. -/
theorem pipe_read_stop_control_witness :
    wimaxll_pipe_read_drain
        (fun m => if m.cmd = 2 then (-16 : Int) else 0)
        [[2, 1], [2, 2], [2, 3]]
      = ([{ cmd := 1, attrs := [] }, { cmd := 2, attrs := [] }], [[2, 3]])
    ∧ wimaxll_pipe_read_drain
        (fun m => if m.cmd = 2 then (-16 : Int) else 0)
        ([[2, 1], [2, 2], [2, 3]].drop 2)
      = ([{ cmd := 3, attrs := [] }], []) := by
  have h := pipe_read_stop_control
    (fun m => if m.cmd = 2 then (-16 : Int) else 0)
    [[2, 1], [2, 2], [2, 3]]
    [{ cmd := 1, attrs := [] }] [{ cmd := 3, attrs := [] }]
    { cmd := 2, attrs := [] }
    (by simp [decode, decodeAttrs])
    (by decide) (by decide) (by decide)
  simpa using h

/-! ## Theorems for claims C4, C6 and C7 -/

/-- C4: on a handle marked dead (device removed), read, write, open_pipe
and wait all fail with `DeviceGone` - the `-ENODEV` errno of the header -
perform zero kernel interactions, and leave the handle unchanged, so every
later call on it fails identically until the handle is closed. -/
theorem dead_handle_ops_fail_enodev (h : wimaxll_handle) (m : Msg)
    (pname : Nat) (hdead : h.dead = true) :
    wimaxll_msg_read h = ⟨.error .DeviceGone, h, 0⟩
    ∧ wimaxll_msg_write h m = ⟨.error .DeviceGone, h, 0⟩
    ∧ wimaxll_pipe_open h pname = ⟨.error .DeviceGone, h, 0⟩
    ∧ wimaxll_wait_for_state_change h = ⟨.error .DeviceGone, h, 0⟩
    ∧ wimaxll_msg_read (wimaxll_msg_read h).handle = wimaxll_msg_read h
    ∧ werrno .DeviceGone = -19 := by
  have h1 : wimaxll_msg_read h = ⟨.error .DeviceGone, h, 0⟩ := by
    rw [wimaxll_msg_read, if_pos hdead]
  refine ⟨h1, ?_, ?_, ?_, ?_, rfl⟩
  · rw [wimaxll_msg_write, if_pos hdead]
  · rw [wimaxll_pipe_open, if_pos hdead]
  · rw [wimaxll_wait_for_state_change, if_pos hdead]
  · rw [h1]
    exact h1

/-- Witness for C4 at a concrete dead handle. -/
theorem dead_handle_ops_fail_enodev_witness :
    wimaxll_msg_read
        { name := 0, dead := true, groups := [(1, 6)], pipes := [some 4],
          queue := [[2, 1]], cb := none, cb_ctx := none }
      = ⟨.error .DeviceGone,
          { name := 0, dead := true, groups := [(1, 6)], pipes := [some 4],
            queue := [[2, 1]], cb := none, cb_ctx := none }, 0⟩ :=
  (dead_handle_ops_fail_enodev
    { name := 0, dead := true, groups := [(1, 6)], pipes := [some 4],
      queue := [[2, 1]], cb := none, cb_ctx := none }
    { cmd := 1, attrs := [] } 1 rfl).1

/-- C6: whatever callback-and-context pair was installed before the call
(including none), and whether the wait returns a matched state pair or an
error, `wimaxll_wait_for_state_change` returns with exactly that pair
installed: the adapter leaves no permanent side effect on the installed
handler. -/
theorem wait_for_state_change_restores_cb (h : wimaxll_handle) :
    (wimaxll_wait_for_state_change h).handle.cb = h.cb
    ∧ (wimaxll_wait_for_state_change h).handle.cb_ctx = h.cb_ctx := by
  rw [wimaxll_wait_for_state_change]
  by_cases hd : h.dead
  · rw [if_pos hd]
    exact ⟨rfl, rfl⟩
  · rw [if_neg hd]
    constructor <;> rfl

/-- C7 counterexample: `wimaxll_pipe_close` is declared `void`
(wimaxll.h:462), so closing a never-opened pipe id cannot return the
`BadPipeId` error the claim asserts: at this concrete handle (only pipe 0
open) closing id 3 returns the unit value - no error - and the unchanged
handle, exactly as the void no-op does. -/
theorem pipe_close_bad_id_returns_nothing :
    wimaxll_pipe_close
        { name := 0, dead := false, groups := [], pipes := [some 4],
          queue := [], cb := none, cb_ctx := none } 3
      = ((),
        { name := 0, dead := false, groups := [], pipes := [some 4],
          queue := [], cb := none, cb_ctx := none }) := rfl

/-- C7 as amended: closing an already-closed or never-opened pipe id is a
safe no-op that returns no value (the function is `void`) and leaves the
handle - hence every other open pipe - untouched; closing an open pipe
clears exactly its slot, so a subsequent `fd` query on that id fails with
`BadPipeId`, a second close of it is a no-op, and every other pipe id keeps
its registry entry. -/
theorem pipe_close_amended (h : wimaxll_handle) (i : Nat)
    (hopen : ∃ fd, h.pipes[i]? = some (some fd)) :
    wimaxll_pipe_fd (wimaxll_pipe_close h i).2 i = .error .BadPipeId
    ∧ wimaxll_pipe_close (wimaxll_pipe_close h i).2 i
        = ((), (wimaxll_pipe_close h i).2)
    ∧ (∀ j, j ≠ i → (wimaxll_pipe_close h i).2.pipes[j]? = h.pipes[j]?)
    ∧ (∀ k, (∀ fd, h.pipes[k]? ≠ some (some fd)) →
        wimaxll_pipe_close h k = ((), h)) := by
  obtain ⟨fd, hfd⟩ := hopen
  have hi : i < h.pipes.length := by
    by_contra hge
    rw [List.getElem?_eq_none (by omega)] at hfd
    exact Option.noConfusion hfd
  have hclose : wimaxll_pipe_close h i
      = ((), { h with pipes := h.pipes.set i none }) := by
    rw [wimaxll_pipe_close, hfd]
  have hset : (h.pipes.set i none)[i]? = some none :=
    List.getElem?_set_self hi
  refine ⟨?_, ?_, ?_, ?_⟩
  · rw [hclose, wimaxll_pipe_fd]
    simp only [hset]
  · rw [hclose, wimaxll_pipe_close]
    simp only [hset]
  · intro j hj
    rw [hclose]
    simp only
    exact List.getElem?_set_ne (fun hij => hj hij.symm)
  · intro k hk
    rw [wimaxll_pipe_close]
    match hcase : h.pipes[k]? with
    | none => rfl
    | some none => rfl
    | some (some fd2) => exact absurd hcase (hk fd2)

/-- Witness for C7's amended claim at a concrete handle with two open
pipes: after closing pipe 0, its `fd` query fails with `BadPipeId`. -/
theorem pipe_close_amended_witness :
    wimaxll_pipe_fd
        (wimaxll_pipe_close
          { name := 0, dead := false, groups := [], pipes := [some 4, some 6],
            queue := [], cb := none, cb_ctx := none } 0).2 0
      = .error .BadPipeId :=
  (pipe_close_amended
    { name := 0, dead := false, groups := [], pipes := [some 4, some 6],
      queue := [], cb := none, cb_ctx := none } 0 ⟨4, rfl⟩).1
